import Mathlib

/-!
Shallow embedding of the scoring and normalization engine of the
METI dashboard (src/app.py).  Python floating-point arithmetic is
modelled by real numbers; Python dict lookups with `.get(key, default)`
become key-equality chains with the same default; missing observation
entries become `Option` values defaulted to `0`.
-/

namespace Meti

/-- Per-instrument static data from the `ASSETS` table of `src/app.py`:
relative weight and directional sign (display metadata omitted, it does
not enter scoring). -/
structure AssetInfo where
  name : String
  weight : ℝ
  direction : ℝ

/-- The `ASSETS` registry of `src/app.py` (lines 14-27): six instruments
with their weights and directions. -/
noncomputable def ASSETS : List (String × AssetInfo) :=
  [("CL=F", ⟨"Crude Oil", 0.30, 1⟩),
   ("GC=F", ⟨"Gold", 0.25, 1⟩),
   ("BTC-USD", ⟨"Bitcoin", 0.18, -1⟩),
   ("LMT", ⟨"Lockheed Martin", 0.08, 1⟩),
   ("RTX", ⟨"Raytheon", 0.07, 1⟩),
   ("^VIX", ⟨"VIX Fear Index", 0.12, 1⟩)]

/-- `TIMEFRAME_WEIGHTS` of `src/app.py` (line 29). -/
noncomputable def TIMEFRAME_WEIGHTS : List (String × ℝ) :=
  [("1h", 0.10), ("4h", 0.30), ("1d", 0.40), ("1wk", 0.20)]

/-- `calculate_market_raw` of `src/app.py` (lines 55-62).  An
observations map sends a ticker and a timeframe key to an optional
percentage change; a missing entry is read as `0.0` exactly as the
Python `.get(tf, 0.0)` does. -/
noncomputable def calculate_market_raw (all_data : String → String → Option ℝ) : ℝ :=
  (ASSETS.map (fun p =>
    ((TIMEFRAME_WEIGHTS.map (fun q =>
      ((all_data p.1 q.1).getD 0) * p.2.direction * q.2)).sum) * p.2.weight)).sum

/-- `normalize_market` of `src/app.py` (lines 64-69); `math.log1p x`
is `Real.log (1 + x)`. -/
noncomputable def normalize_market (raw : ℝ) : ℝ :=
  if raw ≥ 0 then
    min 100 (25 + (raw / 10) * 75)
  else
    max 0 (25 - (Real.log (1 + |raw| * 2) / Real.log (1 + 20)) * 25)

/-- The `military_map.get(us_military, 25)` lookup of `src/app.py`
(lines 73-74): Low=0, Moderate=15, High=25, Extreme=32,
Unprecedented=40, anything else 25. -/
noncomputable def military_map (s : String) : ℝ :=
  if s = "Low" then 0
  else if s = "Moderate" then 15
  else if s = "High" then 25
  else if s = "Extreme" then 32
  else if s = "Unprecedented" then 40
  else 25

/-- The `idf_map.get(idf_alert, 8)` lookup of `src/app.py`
(lines 75-76): Low=0, Moderate=8, High=15, anything else 8. -/
noncomputable def idf_map (s : String) : ℝ :=
  if s = "Low" then 0
  else if s = "Moderate" then 8
  else if s = "High" then 15
  else 8

/-- `calculate_geo_score` of `src/app.py` (lines 71-78).  `carriers` is
the integer from the sidebar number input. -/
noncomputable def calculate_geo_score (carriers : ℤ) (us_military idf_alert : String)
    (sentiment : ℝ) : ℝ :=
  ((min carriers 4 : ℤ) : ℝ) * 8.75 + military_map us_military + idf_map idf_alert +
    (sentiment / 10) * 10

/-- `get_progress_color` of `src/app.py` (lines 80-85). -/
noncomputable def get_progress_color (value max_val : ℝ) : String :=
  if value / max_val < 0.3 then "#10b981"
  else if value / max_val < 0.6 then "#facc15"
  else if value / max_val < 0.85 then "#fb923c"
  else "#ef4444"

/-- `final_index = 0.7 * market_norm + 0.3 * geo_score`
(`src/app.py` line 149). -/
noncomputable def final_index (market_norm geo_score : ℝ) : ℝ :=
  0.7 * market_norm + 0.3 * geo_score

/-- The `level_text, level_color` conditional of `src/app.py`
(lines 151-156). -/
noncomputable def level_text (f : ℝ) : String × String :=
  if f < 30 then ("🟢 Low Tension", "#10b981")
  else if f < 60 then ("🟡 Moderate Tension", "#facc15")
  else if f < 80 then ("🟠 Elevated Tension", "#fb923c")
  else ("🔴 High Tension", "#ef4444")

/-- C1: for marketScore and geoScore each in [0,100] the final index is
exactly the 0.7/0.3 weighted sum (no clamping is applied at the
combining stage) and that sum itself lies in [0,100]. -/
theorem C1_combiner_linear_bounded (m g : ℝ)
    (hm0 : 0 ≤ m) (hm1 : m ≤ 100) (hg0 : 0 ≤ g) (hg1 : g ≤ 100) :
    final_index m g = 0.7 * m + 0.3 * g ∧
    0 ≤ final_index m g ∧ final_index m g ≤ 100 := by
  refine ⟨rfl, ?_, ?_⟩ <;> simp only [final_index] <;> nlinarith

theorem C1_combiner_linear_bounded_witness :
    final_index 25 73 = 0.7 * 25 + 0.3 * 73 ∧
    0 ≤ final_index 25 73 ∧ final_index 25 73 ≤ 100 :=
  C1_combiner_linear_bounded 25 73 (by norm_num) (by norm_num)
    (by norm_num) (by norm_num)

/-- C2: the tension-level classification uses the half-open bands
[0,30) → Low, [30,60) → Moderate, [60,80) → Elevated, [80,100] → High;
in particular 30.0 is Moderate, 60.0 is Elevated, and 80.0 and 100.0
are High. -/
theorem C2_level_bands (f : ℝ) (h0 : 0 ≤ f) (h1 : f ≤ 100) :
    (f < 30 → (level_text f).1 = "🟢 Low Tension") ∧
    (30 ≤ f → f < 60 → (level_text f).1 = "🟡 Moderate Tension") ∧
    (60 ≤ f → f < 80 → (level_text f).1 = "🟠 Elevated Tension") ∧
    (80 ≤ f → (level_text f).1 = "🔴 High Tension") ∧
    (level_text 30).1 = "🟡 Moderate Tension" ∧
    (level_text 60).1 = "🟠 Elevated Tension" ∧
    (level_text 80).1 = "🔴 High Tension" ∧
    (level_text 100).1 = "🔴 High Tension" := by
  unfold level_text
  refine ⟨?_, ?_, ?_, ?_, ?_, ?_, ?_, ?_⟩ <;>
    intros <;> split_ifs <;> first | rfl | (exfalso; linarith) | norm_num at *

theorem C2_level_bands_witness :
    (level_text 30).1 = "🟡 Moderate Tension" ∧
    (level_text 80).1 = "🔴 High Tension" :=
  ⟨(C2_level_bands 30 (by norm_num) (by norm_num)).2.2.2.2.1,
   (C2_level_bands 30 (by norm_num) (by norm_num)).2.2.2.2.2.2.1⟩

/-- C4: for raw ≥ 0, `normalize_market raw = min 100 (25 + (raw/10)*75)`,
it is monotone non-decreasing, maps 0 to exactly 25, and saturates at
exactly 100 for every raw ≥ 10. -/
theorem C4_normalize_nonneg (r s : ℝ) (hr : 0 ≤ r) (hrs : r ≤ s) :
    normalize_market r = min 100 (25 + (r / 10) * 75) ∧
    normalize_market r ≤ normalize_market s ∧
    normalize_market 0 = 25 ∧
    (10 ≤ r → normalize_market r = 100) := by
  have hs : 0 ≤ s := le_trans hr hrs
  refine ⟨?_, ?_, ?_, ?_⟩
  · rw [normalize_market, if_pos hr]
  · rw [normalize_market, if_pos hr, normalize_market, if_pos hs]
    exact min_le_min le_rfl (by nlinarith)
  · rw [normalize_market, if_pos le_rfl]
    norm_num
  · intro h10
    rw [normalize_market, if_pos hr]
    have : (100 : ℝ) ≤ 25 + (r / 10) * 75 := by nlinarith
    simp [min_eq_left this]

theorem C4_normalize_nonneg_witness :
    normalize_market 0 = 25 ∧ normalize_market 10 = 100 := by
  have h := C4_normalize_nonneg 10 12 (by norm_num) (by norm_num)
  exact ⟨h.2.2.1, h.2.2.2 (by norm_num)⟩

/-- The log1p denominator of the negative branch is positive. -/
theorem log21_pos : (0 : ℝ) < Real.log (1 + 20) :=
  Real.log_pos (by norm_num)

/-- Closed form of `normalize_market` on negative input. -/
theorem normalize_market_neg (r : ℝ) (hr : r < 0) :
    normalize_market r =
      max 0 (25 - (Real.log (1 + |r| * 2) / Real.log (1 + 20)) * 25) := by
  rw [normalize_market, if_neg (not_le.mpr hr)]

/-- C3 counterexample: at the finite negative input raw = -10 the
normalized score is exactly 0, refuting "never reaching exactly 0 for
any finite negative raw". -/
theorem C3_counterexample :
    (-10 : ℝ) < 0 ∧ normalize_market (-10) = 0 := by
  refine ⟨by norm_num, ?_⟩
  rw [normalize_market_neg (-10) (by norm_num)]
  have h : (1 : ℝ) + |(-10 : ℝ)| * 2 = 1 + 20 := by norm_num
  rw [h, div_self (ne_of_gt log21_pos)]
  norm_num

/-- C3 amended: for raw < 0 the normalized score is monotonically
non-decreasing in raw and bounded below by 0; it is strictly positive
when -10 < raw < 0 but equals exactly 0 for every raw ≤ -10. -/
theorem C3_neg_branch_amended (r s : ℝ) (hr : r < 0) (hs : s < 0) (hrs : r ≤ s) :
    normalize_market r ≤ normalize_market s ∧
    0 ≤ normalize_market r ∧
    (-10 < r → 0 < normalize_market r) ∧
    (r ≤ -10 → normalize_market r = 0) := by
  have hL := log21_pos
  have hr1 : (0 : ℝ) < 1 + |r| * 2 := by positivity
  have hs1 : (0 : ℝ) < 1 + |s| * 2 := by positivity
  refine ⟨?_, ?_, ?_, ?_⟩
  · rw [normalize_market_neg r hr, normalize_market_neg s hs]
    have habs : |s| ≤ |r| := by
      rw [abs_of_neg hr, abs_of_neg hs]; linarith
    have hlog : Real.log (1 + |s| * 2) ≤ Real.log (1 + |r| * 2) :=
      Real.log_le_log hs1 (by linarith)
    refine max_le_max le_rfl ?_
    have hdiv : Real.log (1 + |s| * 2) / Real.log (1 + 20) ≤
        Real.log (1 + |r| * 2) / Real.log (1 + 20) :=
      (div_le_div_right hL).mpr hlog
    nlinarith
  · rw [normalize_market_neg r hr]
    exact le_max_left 0 _
  · intro h10
    rw [normalize_market_neg r hr]
    have habs : |r| < 10 := by rw [abs_of_neg hr]; linarith
    have hlog : Real.log (1 + |r| * 2) < Real.log (1 + 20) :=
      Real.log_lt_log hr1 (by linarith)
    have hdiv : Real.log (1 + |r| * 2) / Real.log (1 + 20) < 1 :=
      (div_lt_one hL).mpr hlog
    have : (0 : ℝ) < 25 - (Real.log (1 + |r| * 2) / Real.log (1 + 20)) * 25 := by
      nlinarith
    exact lt_max_iff.mpr (Or.inr this)
  · intro h10
    rw [normalize_market_neg r hr]
    have habs : (10 : ℝ) ≤ |r| := by rw [abs_of_neg hr]; linarith
    have hlog : Real.log (1 + 20) ≤ Real.log (1 + |r| * 2) :=
      Real.log_le_log (by norm_num) (by linarith)
    have hdiv : (1 : ℝ) ≤ Real.log (1 + |r| * 2) / Real.log (1 + 20) :=
      (one_le_div hL).mpr hlog
    have : 25 - (Real.log (1 + |r| * 2) / Real.log (1 + 20)) * 25 ≤ 0 := by
      nlinarith
    exact max_eq_left this

theorem C3_neg_branch_amended_witness :
    normalize_market (-1) ≤ normalize_market (-1/2) ∧
    0 < normalize_market (-1) := by
  have h := C3_neg_branch_amended (-1) (-1/2) (by norm_num) (by norm_num) (by norm_num)
  exact ⟨h.1, h.2.2.1 (by norm_num)⟩

/-- The military lookup only ever yields one of 0, 15, 25, 32, 40. -/
theorem military_map_mem (s : String) :
    0 ≤ military_map s ∧ military_map s ≤ 40 := by
  unfold military_map
  split_ifs <;> norm_num

/-- The alert lookup only ever yields one of 0, 8, 15. -/
theorem idf_map_mem (s : String) :
    0 ≤ idf_map s ∧ idf_map s ≤ 15 := by
  unfold idf_map
  split_ifs <;> norm_num

/-- With carriers ≥ 0 and sentiment in [0,10] the geo score lies
in [0,100], whatever the level strings are. -/
theorem calculate_geo_score_mem (c : ℤ) (mil alert : String) (s : ℝ)
    (hc : 0 ≤ c) (hs0 : 0 ≤ s) (hs1 : s ≤ 10) :
    0 ≤ calculate_geo_score c mil alert s ∧
    calculate_geo_score c mil alert s ≤ 100 := by
  have hm := military_map_mem mil
  have ha := idf_map_mem alert
  have h1 : (0 : ℤ) ≤ min c 4 := le_min hc (by norm_num)
  have h2 : min c 4 ≤ (4 : ℤ) := min_le_right c 4
  have h1' : (0 : ℝ) ≤ ((min c 4 : ℤ) : ℝ) := by exact_mod_cast h1
  have h2' : ((min c 4 : ℤ) : ℝ) ≤ 4 := by exact_mod_cast h2
  unfold calculate_geo_score
  constructor <;> nlinarith

/-- C6: the geo score is exactly 100 at the maximal inputs and exactly
0 at the minimal inputs; the four subscore maxima sum to 100, and for
inputs in the valid domains the score is bounded in [0,100]. -/
theorem C6_geo_extremes (c : ℤ) (mil alert : String) (s : ℝ)
    (hc0 : 0 ≤ c) (hc4 : c ≤ 4) (hs0 : 0 ≤ s) (hs1 : s ≤ 10) :
    calculate_geo_score 4 "Unprecedented" "High" 10 = 100 ∧
    calculate_geo_score 0 "Low" "Low" 0 = 0 ∧
    (35 : ℝ) + 40 + 15 + 10 = 100 ∧
    0 ≤ calculate_geo_score c mil alert s ∧
    calculate_geo_score c mil alert s ≤ 100 := by
  have hb := calculate_geo_score_mem c mil alert s hc0 hs0 hs1
  refine ⟨?_, ?_, by norm_num, hb.1, hb.2⟩ <;>
    norm_num +decide [calculate_geo_score, military_map, idf_map]

theorem C6_geo_extremes_witness :
    calculate_geo_score 4 "Unprecedented" "High" 10 = 100 ∧
    calculate_geo_score 0 "Low" "Low" 0 = 0 := by
  have h := C6_geo_extremes 2 "Extreme" "High" 8.5
    (by norm_num) (by norm_num) (by norm_num) (by norm_num)
  exact ⟨h.1, h.2.1⟩

/-- C7: an unrecognized military level scores the default 25 and an
unrecognized alert level scores the default 8; the scorer still
computes the same additive total, it never fails. -/
theorem C7_unrecognized_defaults (mil alert : String) (c : ℤ) (s : ℝ)
    (hm1 : mil ≠ "Low") (hm2 : mil ≠ "Moderate") (hm3 : mil ≠ "High")
    (hm4 : mil ≠ "Extreme") (hm5 : mil ≠ "Unprecedented")
    (ha1 : alert ≠ "Low") (ha2 : alert ≠ "Moderate") (ha3 : alert ≠ "High") :
    military_map mil = 25 ∧ idf_map alert = 8 ∧
    calculate_geo_score c mil alert s =
      ((min c 4 : ℤ) : ℝ) * 8.75 + 25 + 8 + (s / 10) * 10 := by
  have h1 : military_map mil = 25 := by
    simp [military_map, hm1, hm2, hm3, hm4, hm5]
  have h2 : idf_map alert = 8 := by
    simp [idf_map, ha1, ha2, ha3]
  exact ⟨h1, h2, by rw [calculate_geo_score, h1, h2]⟩

theorem C7_unrecognized_defaults_witness :
    military_map "DEFCON" = 25 ∧ idf_map "Orange" = 8 := by
  have h := C7_unrecognized_defaults "DEFCON" "Orange" 2 8.5
    (by decide) (by decide) (by decide) (by decide) (by decide)
    (by decide) (by decide) (by decide)
  exact ⟨h.1, h.2.1⟩

/-- C10: the geo scorer performs no clamping to [0,100]: for negative
carrier counts the carrier subscore is carriers * 8.75 (min does not
bound below), so with all other inputs minimal the score is negative;
and for sentiment > 10 the sentiment subscore equals sentiment, so the
score exceeds 100. -/
theorem C10_no_clamping (c : ℤ) (s : ℝ) (hc : c < 0) (hs : 10 < s) :
    ((min c 4 : ℤ) : ℝ) * 8.75 = (c : ℝ) * 8.75 ∧
    calculate_geo_score c "Low" "Low" 0 < 0 ∧
    (s / 10) * 10 = s ∧
    100 < calculate_geo_score 4 "Unprecedented" "High" s := by
  have hmin : min c 4 = c := min_eq_left (by linarith)
  have hc' : (c : ℝ) < 0 := by exact_mod_cast hc
  refine ⟨by rw [hmin], ?_, by ring, ?_⟩
  · rw [calculate_geo_score, hmin]
    norm_num +decide [military_map, idf_map]
    nlinarith
  · rw [calculate_geo_score]
    norm_num +decide [military_map, idf_map]
    nlinarith

theorem C10_no_clamping_witness :
    calculate_geo_score (-2) "Low" "Low" 0 < 0 ∧
    100 < calculate_geo_score 4 "Unprecedented" "High" 11 := by
  have h := C10_no_clamping (-2) 11 (by norm_num) (by norm_num)
  exact ⟨h.2.1, h.2.2.2⟩

/-- Whatever the raw signal, the normalized market score lies in [0,100]. -/
theorem normalize_market_mem (r : ℝ) :
    0 ≤ normalize_market r ∧ normalize_market r ≤ 100 := by
  unfold normalize_market
  split_ifs with h
  · exact ⟨le_min (by norm_num) (by nlinarith), min_le_left _ _⟩
  · refine ⟨le_max_left 0 _, ?_⟩
    have habs : (0 : ℝ) ≤ |r| := abs_nonneg r
    have hlog : 0 ≤ Real.log (1 + |r| * 2) := Real.log_nonneg (by linarith)
    have hq : 0 ≤ (Real.log (1 + |r| * 2) / Real.log (1 + 20)) * 25 := by
      have := log21_pos
      positivity
    exact max_le (by norm_num) (by linarith)

/-- C5: flat market (every change 0.0) with the default geopolitical
inputs (carriers=2, military="Extreme", alert="High", sentiment=8.5)
yields marketScore = 25.0, geoScore = 73.0, final = 39.4, level
Moderate. -/
theorem C5_flat_default_scenario :
    calculate_market_raw (fun _ _ => some 0) = 0 ∧
    normalize_market (calculate_market_raw (fun _ _ => some 0)) = 25 ∧
    calculate_geo_score 2 "Extreme" "High" 8.5 = 73 ∧
    final_index (normalize_market (calculate_market_raw (fun _ _ => some 0)))
      (calculate_geo_score 2 "Extreme" "High" 8.5) = 39.4 ∧
    (level_text (final_index
        (normalize_market (calculate_market_raw (fun _ _ => some 0)))
        (calculate_geo_score 2 "Extreme" "High" 8.5))).1 =
      "🟡 Moderate Tension" := by
  have hraw : calculate_market_raw (fun _ _ => some 0) = 0 := by
    norm_num [calculate_market_raw, ASSETS, TIMEFRAME_WEIGHTS]
  have hnorm : normalize_market 0 = 25 := by
    rw [normalize_market, if_pos le_rfl]; norm_num
  have hgeo : calculate_geo_score 2 "Extreme" "High" 8.5 = 73 := by
    norm_num +decide [calculate_geo_score, military_map, idf_map]
  have hfinal : final_index 25 73 = 39.4 := by
    rw [final_index]; norm_num
  have hlevel : (level_text 39.4).1 = "🟡 Moderate Tension" := by
    rw [level_text, if_neg (by norm_num), if_pos (by norm_num)]
  rw [hraw, hnorm, hgeo, hfinal]
  exact ⟨rfl, rfl, rfl, rfl, hlevel⟩

/-- C8: a missing instrument/timeframe entry is read as 0.0 change and
never aborts aggregation: the raw scalar equals the one computed from
the 0-defaulted data, and the final index built on top of it is still
in [0,100] for geo inputs in their valid domains. -/
theorem C8_missing_data (obs : String → String → Option ℝ) (c : ℤ)
    (mil alert : String) (s : ℝ) (hc : 0 ≤ c) (hs0 : 0 ≤ s) (hs1 : s ≤ 10) :
    calculate_market_raw obs =
      calculate_market_raw (fun t tf => some ((obs t tf).getD 0)) ∧
    0 ≤ final_index (normalize_market (calculate_market_raw obs))
        (calculate_geo_score c mil alert s) ∧
    final_index (normalize_market (calculate_market_raw obs))
        (calculate_geo_score c mil alert s) ≤ 100 := by
  have hm := normalize_market_mem (calculate_market_raw obs)
  have hg := calculate_geo_score_mem c mil alert s hc hs0 hs1
  refine ⟨by simp [calculate_market_raw], ?_, ?_⟩ <;>
    rw [final_index] <;> nlinarith [hm.1, hm.2, hg.1, hg.2]

theorem C8_missing_data_witness :
    calculate_market_raw (fun _ _ => none) =
      calculate_market_raw (fun t tf =>
        some ((((fun (_ _ : String) => (none : Option ℝ))) t tf).getD 0)) ∧
    0 ≤ final_index (normalize_market (calculate_market_raw (fun _ _ => none)))
        (calculate_geo_score 2 "Extreme" "High" 8.5) ∧
    final_index (normalize_market (calculate_market_raw (fun _ _ => none)))
        (calculate_geo_score 2 "Extreme" "High" 8.5) ≤ 100 :=
  C8_missing_data (fun _ _ => none) 2 "Extreme" "High" 8.5
    (by norm_num) (by norm_num) (by norm_num)

/-- C9: the per-factor band function classifies by the ratio
value/maxValue with cut points 0.3, 0.6, 0.85 (distinct from the final
index's 30/60/80 thresholds): ratio < 0.3 is the calm band, [0.3,0.6)
the watch band, [0.6,0.85) the elevated band, ≥ 0.85 the critical
band. -/
theorem C9_band_thresholds (v M : ℝ) (hM : 0 < M) :
    (v / M < 0.3 → get_progress_color v M = "#10b981") ∧
    (0.3 ≤ v / M → v / M < 0.6 → get_progress_color v M = "#facc15") ∧
    (0.6 ≤ v / M → v / M < 0.85 → get_progress_color v M = "#fb923c") ∧
    (0.85 ≤ v / M → get_progress_color v M = "#ef4444") := by
  unfold get_progress_color
  refine ⟨?_, ?_, ?_, ?_⟩ <;> intros <;> split_ifs <;>
    first | rfl | linarith

theorem C9_band_thresholds_witness :
    get_progress_color 1 2 = "#facc15" := by
  have h := C9_band_thresholds 1 2 (by norm_num)
  exact h.2.1 (by norm_num) (by norm_num)

end Meti
